import Mathlib

/-!
Shallow embedding of the Silver Bullet strategy engine
(`src/sbwatch/strategy.py`, class `SBEngine`) and proofs about it.

Modelling conventions:
* Python floats are modelled as rationals (`ℚ`); the float constant `1e-9`
  becomes the rational `1/1000000000`.
* Python `int` timestamps and indices are `ℤ`; Python `//` is `Int.fdiv`
  and `%` (with positive modulus) is `Int.emod`.
* The America/New_York local-time conversion is modelled as a fixed
  millisecond offset `tz_off` added to the epoch timestamp (one engine
  instance lives inside a single trading day, so the offset is constant).
* `notify.post_entry` is abstracted as the list of `Signal` values a call
  returns; `_maybe_post` keeps its window gate.
* Module-level environment configuration becomes an explicit `Config`.
-/

namespace SBWatch

/-- One OHLC observation / bar, mirroring the bar dicts
`{"ts":…, "o":…, "h":…, "l":…, "c":…}` of `strategy.py`. -/
structure Bar where
  ts : ℤ
  o : ℚ
  h : ℚ
  l : ℚ
  c : ℚ
  deriving DecidableEq

/-- The day's reference levels (`SBEngine.levels` dict); absent keys are `none`. -/
structure Levels where
  pdh : Option ℚ
  pdl : Option ℚ
  asia_high : Option ℚ
  asia_low : Option ℚ
  london_high : Option ℚ
  london_low : Option ℚ
  deriving DecidableEq

/-- A recorded fair-value gap (`self._last_bull` / `self._last_bear` dicts). -/
structure FVG where
  i : ℤ
  gap_top : ℚ
  gap_bot : ℚ
  disp : ℚ
  c1_low : ℚ
  c1_high : ℚ
  deriving DecidableEq

inductive Side where
  | long
  | short
  deriving DecidableEq

/-- The payload handed to the notifier by `_maybe_post`. -/
structure Signal where
  side : Side
  entry : ℚ
  sl : ℚ
  tp : ℚ
  when : ℤ
  deriving DecidableEq

/-- Module-level configuration of `strategy.py` (environment-derived globals):
`FVG_MODE`, `SB_FVG_MIN`, `SB_DISPLACEMENT_MIN`, `SB_RET_MAX_BARS`,
`INTERNAL_SWEEP_PRE10`, `WINDOW_START`/`WINDOW_END` (as milliseconds of the
local day), `SB_SL_BUFFER`, `SB_TP_RR`, plus the fixed timezone offset. -/
structure Config where
  mode3c : Bool
  fvg_min : ℚ
  disp_min : ℚ
  ret_max_bars : ℤ
  pre10 : Bool
  win_start : ℤ
  win_end : ℤ
  sl_buffer : ℚ
  tp_rr : ℚ
  tz_off : ℤ
  deriving DecidableEq

/-- The mutable state of `SBEngine`. -/
structure Engine where
  levels : Levels
  bucket : Option ℤ
  i : ℤ
  A : Option Bar
  B : Option Bar
  C : Option Bar
  pre_hi : Option ℚ
  pre_lo : Option ℚ
  last_bull : Option FVG
  last_bear : Option FVG
  deriving DecidableEq

/-- Milliseconds into the local day of an epoch-millisecond timestamp. -/
def todMs (cfg : Config) (ts : ℤ) : ℤ := Int.emod (ts + cfg.tz_off) 86400000

/-- Local hour of day (`datetime.fromtimestamp(ts/1000, tz=ET).hour`). -/
def localHour (cfg : Config) (ts : ℤ) : ℤ := Int.fdiv (todMs cfg ts) 3600000

/-- `_in_entry_window`: the timestamp's local time of day lies in
`[WINDOW_START, WINDOW_END]` (inclusive). -/
def inEntryWindow (cfg : Config) (ts : ℤ) : Bool :=
  decide (cfg.win_start ≤ todMs cfg ts) && decide (todMs cfg ts ≤ cfg.win_end)

/-- `SBEngine._update_pre10`: before 10:00 local, widen the internal swing
extrema; otherwise leave them alone. -/
def updatePre10 (cfg : Config) (e : Engine) (ts : ℤ) (h l : ℚ) : Engine :=
  if cfg.pre10 && decide (localHour cfg ts < 10) then
    { e with
      pre_hi := some (match e.pre_hi with
        | none => h
        | some x => if x < h then h else x),
      pre_lo := some (match e.pre_lo with
        | none => l
        | some x => if l < x then l else x) }
  else e

/-- Helper: an optional level `v` is present and strictly below `x`. -/
def optLt (v : Option ℚ) (x : ℚ) : Bool :=
  match v with
  | some a => decide (a < x)
  | none => false

/-- Helper: an optional level `v` is present and strictly above `x`. -/
def optGt (v : Option ℚ) (x : ℚ) : Bool :=
  match v with
  | some a => decide (x < a)
  | none => false

/-- `SBEngine._swept_high`. -/
def sweptHigh (cfg : Config) (e : Engine) (h : ℚ) : Bool :=
  optLt e.levels.pdh h || optLt e.levels.asia_high h || optLt e.levels.london_high h ||
    (cfg.pre10 && optLt e.pre_hi h)

/-- `SBEngine._swept_low`. -/
def sweptLow (cfg : Config) (e : Engine) (l : ℚ) : Bool :=
  optGt e.levels.pdl l || optGt e.levels.asia_low l || optGt e.levels.london_low l ||
    (cfg.pre10 && optGt e.pre_lo l)

/-- `SBEngine._displacement`: body over range, range floored at `1e-9`. -/
def displacement (o h l c : ℚ) : ℚ := |c - o| / max ((1 : ℚ) / 1000000000) (h - l)

/-- `SBEngine._maybe_post`: forward the entry only when the timestamp passes
the entry-window gate; otherwise emit nothing. -/
def maybePost (cfg : Config) (ts : ℤ) (side : Side) (entry sl tp : ℚ) : List Signal :=
  if inEntryWindow cfg ts then [⟨side, entry, sl, tp, ts⟩] else []

def mkBar (ts : ℤ) (o h l c : ℚ) : Bar := ⟨ts, o, h, l, c⟩

/-- First-observation branch of `on_bar`: seed the bucket and all of A/B/C
with a copy of the observation, then feed the pre-10 memory. -/
def initStep (cfg : Config) (e : Engine) (ts : ℤ) (o h l c : ℚ) : Engine :=
  updatePre10 cfg
    { e with
        bucket := some (Int.fdiv ts 60000),
        A := some (mkBar ts o h l c), B := some (mkBar ts o h l c),
        C := some (mkBar ts o h l c) }
    ts h l

/-- Intraminute branch of `on_bar`: expand the in-progress bar A in place and
feed the pre-10 memory; no evaluation runs. -/
def intraStep (cfg : Config) (e : Engine) (ts : ℤ) (o h l c : ℚ) : Engine :=
  updatePre10 cfg
    (match e.A with
      | none => { e with A := some (mkBar ts o h l c) }
      | some a => { e with A := some { a with ts := ts, h := max a.h h, l := min a.l l, c := c } })
    ts h l

/-- `prevA` of the roll: the finished in-progress bar (or a bar built from the
current observation when A is absent). -/
def prevAOf (e : Engine) (ts : ℤ) (o h l c : ℚ) : Bar :=
  match e.A with
  | some a => a
  | none => mkBar ts o h l c

/-- `prevB` of the roll. -/
def prevBOf (e : Engine) (ts : ℤ) (o h l c : ℚ) : Bar :=
  match e.B with
  | some b => b
  | none => prevAOf e ts o h l c

/-- New-minute roll of `on_bar`: bump the bucket and the bar index, shift
`A → B → C`, seed the new A from the observation, feed the pre-10 memory. -/
def rollUpdate (cfg : Config) (e : Engine) (ts : ℤ) (o h l c : ℚ) : Engine :=
  updatePre10 cfg
    { e with
        bucket := some (Int.fdiv ts 60000), i := e.i + 1,
        C := some (prevBOf e ts o h l c), B := some (prevAOf e ts o h l c),
        A := some (mkBar ts o h l c) }
    ts h l

/-- Displacement reference: bar B in `"3C"` mode, bar C otherwise. -/
def dispRefOf (cfg : Config) (B C : Bar) : ℚ :=
  if cfg.mode3c then displacement B.o B.h B.l B.c else displacement C.o C.h C.l C.c

/-- The bull-gap slot after the gap-construction stage of the evaluation
(`self._last_bull` is overwritten on a qualifying gap, kept otherwise). -/
def bullGapOf (cfg : Config) (e : Engine) (B C : Bar) (disp_ok : Bool) (disp_ref : ℚ) :
    Option FVG :=
  if disp_ok then
    if cfg.mode3c then
      match e.A with
      | some A =>
        if decide (cfg.fvg_min ≤ C.l - A.h) then
          some ⟨e.i, C.l, A.h, disp_ref, A.l, A.h⟩
        else e.last_bull
      | none => e.last_bull
    else
      if decide (cfg.fvg_min ≤ C.l - B.h) then
        some ⟨e.i, C.l, B.h, disp_ref, B.l, B.h⟩
      else e.last_bull
  else e.last_bull

/-- The bear-gap slot after the gap-construction stage of the evaluation. -/
def bearGapOf (cfg : Config) (e : Engine) (B C : Bar) (disp_ok : Bool) (disp_ref : ℚ) :
    Option FVG :=
  if disp_ok then
    if cfg.mode3c then
      match e.A with
      | some A =>
        if decide (cfg.fvg_min ≤ A.l - C.h) then
          some ⟨e.i, A.l, C.h, disp_ref, A.l, A.h⟩
        else e.last_bear
      | none => e.last_bear
    else
      if decide (cfg.fvg_min ≤ B.l - C.h) then
        some ⟨e.i, B.l, C.h, disp_ref, B.l, B.h⟩
      else e.last_bear
  else e.last_bear

/-- Gap-construction stage (`# build/refresh last FVGs when displacement ok`). -/
def createGaps (cfg : Config) (e : Engine) (B C : Bar) (disp_ok : Bool) (disp_ref : ℚ) :
    Engine :=
  { e with last_bull := bullGapOf cfg e B C disp_ok disp_ref,
           last_bear := bearGapOf cfg e B C disp_ok disp_ref }

/-- Bull-return check (`# check returns into last bull gap`). -/
def bullResult (cfg : Config) (e : Engine) (C : Bar) (swept_lo disp_ok : Bool) :
    Engine × List Signal :=
  match e.last_bull with
  | some last =>
    if decide (e.i - last.i ≤ cfg.ret_max_bars) && decide (C.l ≤ last.gap_top) &&
        swept_lo && disp_ok then
      ({ e with last_bull := none },
        maybePost cfg C.ts Side.long last.gap_top (last.c1_low - cfg.sl_buffer)
          (last.gap_top + (last.gap_top - (last.c1_low - cfg.sl_buffer)) * cfg.tp_rr))
    else (e, [])
  | none => (e, [])

/-- Bear-return check (`# check returns into last bear gap`). -/
def bearResult (cfg : Config) (e : Engine) (C : Bar) (swept_hi disp_ok : Bool) :
    Engine × List Signal :=
  match e.last_bear with
  | some last =>
    if decide (e.i - last.i ≤ cfg.ret_max_bars) && decide (last.gap_bot ≤ C.h) &&
        swept_hi && disp_ok then
      ({ e with last_bear := none },
        maybePost cfg C.ts Side.short last.gap_bot (last.c1_high + cfg.sl_buffer)
          (last.gap_bot - ((last.c1_high + cfg.sl_buffer) - last.gap_bot) * cfg.tp_rr))
    else (e, [])
  | none => (e, [])

/-- Sweep checks plus the two return checks, in source order: the bull check
runs first (consuming the bull slot on fire), then the bear check on the
resulting state; both sweeps are evaluated on the pre-check state. -/
def returnPhase (cfg : Config) (e : Engine) (C : Bar) (disp_ok : Bool) :
    Engine × List Signal :=
  ((bearResult cfg (bullResult cfg e C (sweptLow cfg e C.l) disp_ok).1 C
      (sweptHigh cfg e C.h) disp_ok).1,
    (bullResult cfg e C (sweptLow cfg e C.l) disp_ok).2 ++
      (bearResult cfg (bullResult cfg e C (sweptLow cfg e C.l) disp_ok).1 C
        (sweptHigh cfg e C.h) disp_ok).2)

/-- The strategy evaluation that runs on a minute roll (everything in `on_bar`
after the roll itself); skipped when B or C is missing. -/
def evalRoll (cfg : Config) (e : Engine) : Engine × List Signal :=
  match e.B, e.C with
  | some B, some C =>
    returnPhase cfg
      (createGaps cfg e B C (decide (cfg.disp_min ≤ dispRefOf cfg B C)) (dispRefOf cfg B C))
      C (decide (cfg.disp_min ≤ dispRefOf cfg B C))
  | _, _ => (e, [])

/-- `SBEngine.on_bar`: the single ingestion entry point.  Returns the new
engine state together with the signals forwarded to the notifier. -/
def onBar (cfg : Config) (e : Engine) (ts : ℤ) (o h l c : ℚ) : Engine × List Signal :=
  match e.bucket with
  | none => (initStep cfg e ts o h l c, [])
  | some cb =>
    if Int.fdiv ts 60000 = cb then (intraStep cfg e ts o h l c, [])
    else evalRoll cfg (rollUpdate cfg e ts o h l c)

/-- One observation fed to `on_bar`. -/
structure Obs where
  ts : ℤ
  o : ℚ
  h : ℚ
  l : ℚ
  c : ℚ
  deriving DecidableEq

def step (cfg : Config) (e : Engine) (x : Obs) : Engine × List Signal :=
  onBar cfg e x.ts x.o x.h x.l x.c

/-- Feed a whole sequence of observations, collecting all emitted signals. -/
def run (cfg : Config) (e : Engine) : List Obs → Engine × List Signal
  | [] => (e, [])
  | x :: xs =>
    let r1 := step cfg e x
    let r2 := run cfg r1.1 xs
    (r2.1, r1.2 ++ r2.2)

/-- `SBEngine.__init__`: fresh state for a given level set. -/
def initEngine (L : Levels) : Engine :=
  ⟨L, none, 0, none, none, none, none, none, none, none⟩

/-- The engine state right after the gap-construction stage of a call (and
simply the updated state on the non-evaluating branches). -/
def afterCreate (cfg : Config) (e : Engine) (ts : ℤ) (o h l c : ℚ) : Engine :=
  match e.bucket with
  | none => initStep cfg e ts o h l c
  | some cb =>
    if Int.fdiv ts 60000 = cb then intraStep cfg e ts o h l c
    else
      createGaps cfg (rollUpdate cfg e ts o h l c)
        (prevAOf e ts o h l c) (prevBOf e ts o h l c)
        (decide (cfg.disp_min ≤ dispRefOf cfg (prevAOf e ts o h l c) (prevBOf e ts o h l c)))
        (dispRefOf cfg (prevAOf e ts o h l c) (prevBOf e ts o h l c))

/-- Displacement reference of the evaluation triggered by this observation. -/
def dispRefAt (cfg : Config) (e : Engine) (ts : ℤ) (o h l c : ℚ) : ℚ :=
  dispRefOf cfg (prevAOf e ts o h l c) (prevBOf e ts o h l c)

/-- Whether the displacement reference qualifies on this evaluation. -/
def dispOkAt (cfg : Config) (e : Engine) (ts : ℤ) (o h l c : ℚ) : Bool :=
  decide (cfg.disp_min ≤ dispRefAt cfg e ts o h l c)

/-- Zero or one pending gap in an optional gap slot. -/
def pendingOpt : Option FVG → ℕ
  | some _ => 1
  | none => 0

def pendingBull (e : Engine) : ℕ := pendingOpt e.last_bull

def pendingBear (e : Engine) : ℕ := pendingOpt e.last_bear

/-- Number of LONG signals in an output list. -/
def countLong : List Signal → ℕ
  | [] => 0
  | s :: rest => (if s.side = Side.long then 1 else 0) + countLong rest

/-- Number of SHORT signals in an output list. -/
def countShort : List Signal → ℕ
  | [] => 0
  | s :: rest => (if s.side = Side.short then 1 else 0) + countShort rest

/-- Condition under which the gap-construction stage overwrites the bull slot
(displacement qualifies and the 3-candle resp. 2-candle bull gap is wide
enough), mirroring the branch structure of `bullGapOf`. -/
def bullCreatedCond (cfg : Config) (e : Engine) (B C : Bar) (disp_ok : Bool) : Bool :=
  disp_ok &&
    (if cfg.mode3c then
      match e.A with
      | some A => decide (cfg.fvg_min ≤ C.l - A.h)
      | none => false
    else decide (cfg.fvg_min ≤ C.l - B.h))

/-- Mirror of `bullCreatedCond` for the bear slot. -/
def bearCreatedCond (cfg : Config) (e : Engine) (B C : Bar) (disp_ok : Bool) : Bool :=
  disp_ok &&
    (if cfg.mode3c then
      match e.A with
      | some A => decide (cfg.fvg_min ≤ A.l - C.h)
      | none => false
    else decide (cfg.fvg_min ≤ B.l - C.h))

/-- Whether the call for observation `x` writes a fresh bull gap. -/
def bullCreated (cfg : Config) (e : Engine) (x : Obs) : Bool :=
  match e.bucket with
  | none => false
  | some cb =>
    if Int.fdiv x.ts 60000 = cb then false
    else
      bullCreatedCond cfg (rollUpdate cfg e x.ts x.o x.h x.l x.c)
        (prevAOf e x.ts x.o x.h x.l x.c) (prevBOf e x.ts x.o x.h x.l x.c)
        (decide (cfg.disp_min ≤
          dispRefOf cfg (prevAOf e x.ts x.o x.h x.l x.c) (prevBOf e x.ts x.o x.h x.l x.c)))

/-- Whether the call for observation `x` writes a fresh bear gap. -/
def bearCreated (cfg : Config) (e : Engine) (x : Obs) : Bool :=
  match e.bucket with
  | none => false
  | some cb =>
    if Int.fdiv x.ts 60000 = cb then false
    else
      bearCreatedCond cfg (rollUpdate cfg e x.ts x.o x.h x.l x.c)
        (prevAOf e x.ts x.o x.h x.l x.c) (prevBOf e x.ts x.o x.h x.l x.c)
        (decide (cfg.disp_min ≤
          dispRefOf cfg (prevAOf e x.ts x.o x.h x.l x.c) (prevBOf e x.ts x.o x.h x.l x.c)))

/-- Number of bull-gap creations along a run. -/
def countBullCreated (cfg : Config) : Engine → List Obs → ℕ
  | _, [] => 0
  | e, x :: xs =>
    (if bullCreated cfg e x then 1 else 0) + countBullCreated cfg (step cfg e x).1 xs

/-- Number of bear-gap creations along a run. -/
def countBearCreated (cfg : Config) : Engine → List Obs → ℕ
  | _, [] => 0
  | e, x :: xs =>
    (if bearCreated cfg e x then 1 else 0) + countBearCreated cfg (step cfg e x).1 xs

/-- The swing-high slot only ever widens: it never goes back from `some` to
`none` and its value never decreases. -/
def hiWidens : Option ℚ → Option ℚ → Prop
  | none, _ => True
  | some x, some y => x ≤ y
  | some _, none => False

/-- The swing-low slot only ever widens downward. -/
def loWidens : Option ℚ → Option ℚ → Prop
  | none, _ => True
  | some x, some y => y ≤ x
  | some _, none => False

/-! Concrete fixtures used by witnesses and counterexamples: the default
configuration of `strategy.py` (3-candle mode, `SB_FVG_MIN = 0.15`,
`SB_DISPLACEMENT_MIN = 0.30`, `SB_RET_MAX_BARS = 20`, buffer 5, RR 1) with a
whole-day entry window, plus small hand-built states. -/

def cfgStd : Config := ⟨true, 3/20, 3/10, 20, false, 0, 86399999, 5, 1, 0⟩

def cfgPre : Config := { cfgStd with pre10 := true }

def levelsNone : Levels := ⟨none, none, none, none, none, none⟩

def levelsPdlBig : Levels := ⟨none, some 1000000000, none, none, none, none⟩

/-- Degenerate configuration (all thresholds zero, whole-day window) used to
exercise the firing path with minimal arithmetic. -/
def cfgTiny : Config := ⟨true, 0, 0, 20, false, 0, 86399999, 0, 0, 0⟩

def cfgTinyNarrow : Config := { cfgTiny with win_start := 36000000, win_end := 39600000 }

/-- Minimal engine state holding a pending bull gap at price zero. -/
def eTiny : Engine :=
  ⟨levelsPdlBig, some 0, 1, some ⟨0, 0, 0, 0, 0⟩, some ⟨0, 0, 0, 0, 0⟩,
    some ⟨0, 0, 0, 0, 0⟩, none, none, some ⟨0, 0, 0, 0, 0, 0⟩, none⟩

/-- State after the first three minutes of the C1 scenario: seed bar, a flat
bar, then the displacement candle `(99,105,98,104)`. -/
def c1Pre : Engine :=
  (run cfgStd (initEngine levelsNone)
    [⟨0, 100, 101, 99, 100⟩, ⟨60000, 100, 101, 99, 100⟩, ⟨120000, 99, 105, 98, 104⟩]).1

def c3Gap : FVG := ⟨3, 95, 94, 1/2, 93, 94⟩

/-- Engine mid-minute with a pending bull gap, for the intraminute scenario. -/
def c3Eng : Engine :=
  ⟨levelsPdlBig, some 10, 4, some ⟨600000, 100, 101, 99, 100⟩,
    some ⟨540000, 100, 101, 99, 100⟩, some ⟨480000, 100, 101, 99, 100⟩,
    none, none, some c3Gap, none⟩

def c2Gap : FVG := ⟨3, 95, 94, 1, 93, 94⟩

/-- Pending bull gap, return bar `(94,96,93,94)` already completed as B, but
the in-progress bar A is a zero-body candle, so the next roll's displacement
reference fails. -/
def c2EngNoDisp : Engine :=
  ⟨levelsPdlBig, some 5, 5, some ⟨300000, 100, 101, 99, 100⟩,
    some ⟨240000, 94, 96, 93, 94⟩, some ⟨180000, 94, 95, 93, 94⟩,
    none, none, some c2Gap, none⟩

def c7Gap : FVG := ⟨0, 95, 94, 1/2, 93, 94⟩

/-- Engine whose pending gaps were created 30 bars ago. -/
def c7Eng : Engine :=
  ⟨levelsPdlBig, some 0, 30, some ⟨0, 100, 101, 99, 100⟩, some ⟨0, 100, 101, 99, 100⟩,
    some ⟨0, 100, 101, 99, 100⟩, none, none, some c7Gap, some c7Gap⟩

def c8Gap : FVG := ⟨1, 50, 49, 1, 48, 49⟩

/-- Engine holding a stale pending bull gap about to be replaced: A is a
displacement candle and B's low sits a qualifying gap above the next
observation's high. -/
def c8Eng : Engine :=
  ⟨levelsNone, some 2, 2, some ⟨120000, 99, 105, 98, 104⟩, some ⟨60000, 100, 101, 95, 100⟩,
    some ⟨0, 100, 101, 99, 100⟩, none, none, some c8Gap, none⟩

def c9Eng : Engine :=
  ⟨levelsNone, some 0, 1, some ⟨0, 100, 101, 99, 100⟩, some ⟨0, 100, 101, 99, 100⟩,
    some ⟨0, 100, 101, 99, 100⟩, some 101, some 99, none, none⟩

def c9Obs : Obs := ⟨39600000, 100, 200, 50, 100⟩

def c10Eng : Engine :=
  ⟨levelsNone, some 5, 2, some ⟨300000, 100, 101, 99, 100⟩, some ⟨240000, 1, 2, 0, 1⟩,
    some ⟨180000, 1, 2, 0, 1⟩, none, none, none, none⟩

def c10Obs : Obs := ⟨330000, 100, 102, 98, 101⟩

/-! Projection lemmas: which state components each stage leaves untouched. -/

@[simp] lemma updatePre10_levels (cfg : Config) (e : Engine) (ts : ℤ) (h l : ℚ) :
    (updatePre10 cfg e ts h l).levels = e.levels := by
  unfold updatePre10; split <;> rfl

@[simp] lemma updatePre10_bucket (cfg : Config) (e : Engine) (ts : ℤ) (h l : ℚ) :
    (updatePre10 cfg e ts h l).bucket = e.bucket := by
  unfold updatePre10; split <;> rfl

@[simp] lemma updatePre10_i (cfg : Config) (e : Engine) (ts : ℤ) (h l : ℚ) :
    (updatePre10 cfg e ts h l).i = e.i := by
  unfold updatePre10; split <;> rfl

@[simp] lemma updatePre10_A (cfg : Config) (e : Engine) (ts : ℤ) (h l : ℚ) :
    (updatePre10 cfg e ts h l).A = e.A := by
  unfold updatePre10; split <;> rfl

@[simp] lemma updatePre10_B (cfg : Config) (e : Engine) (ts : ℤ) (h l : ℚ) :
    (updatePre10 cfg e ts h l).B = e.B := by
  unfold updatePre10; split <;> rfl

@[simp] lemma updatePre10_C (cfg : Config) (e : Engine) (ts : ℤ) (h l : ℚ) :
    (updatePre10 cfg e ts h l).C = e.C := by
  unfold updatePre10; split <;> rfl

@[simp] lemma updatePre10_last_bull (cfg : Config) (e : Engine) (ts : ℤ) (h l : ℚ) :
    (updatePre10 cfg e ts h l).last_bull = e.last_bull := by
  unfold updatePre10; split <;> rfl

@[simp] lemma updatePre10_last_bear (cfg : Config) (e : Engine) (ts : ℤ) (h l : ℚ) :
    (updatePre10 cfg e ts h l).last_bear = e.last_bear := by
  unfold updatePre10; split <;> rfl

@[simp] lemma rollUpdate_B (cfg : Config) (e : Engine) (ts : ℤ) (o h l c : ℚ) :
    (rollUpdate cfg e ts o h l c).B = some (prevAOf e ts o h l c) := by
  unfold rollUpdate; rw [updatePre10_B]

@[simp] lemma rollUpdate_C (cfg : Config) (e : Engine) (ts : ℤ) (o h l c : ℚ) :
    (rollUpdate cfg e ts o h l c).C = some (prevBOf e ts o h l c) := by
  unfold rollUpdate; rw [updatePre10_C]

@[simp] lemma rollUpdate_A (cfg : Config) (e : Engine) (ts : ℤ) (o h l c : ℚ) :
    (rollUpdate cfg e ts o h l c).A = some (mkBar ts o h l c) := by
  unfold rollUpdate; rw [updatePre10_A]

@[simp] lemma rollUpdate_i (cfg : Config) (e : Engine) (ts : ℤ) (o h l c : ℚ) :
    (rollUpdate cfg e ts o h l c).i = e.i + 1 := by
  unfold rollUpdate; rw [updatePre10_i]

@[simp] lemma rollUpdate_levels (cfg : Config) (e : Engine) (ts : ℤ) (o h l c : ℚ) :
    (rollUpdate cfg e ts o h l c).levels = e.levels := by
  unfold rollUpdate; rw [updatePre10_levels]

@[simp] lemma rollUpdate_last_bull (cfg : Config) (e : Engine) (ts : ℤ) (o h l c : ℚ) :
    (rollUpdate cfg e ts o h l c).last_bull = e.last_bull := by
  unfold rollUpdate; rw [updatePre10_last_bull]

@[simp] lemma rollUpdate_last_bear (cfg : Config) (e : Engine) (ts : ℤ) (o h l c : ℚ) :
    (rollUpdate cfg e ts o h l c).last_bear = e.last_bear := by
  unfold rollUpdate; rw [updatePre10_last_bear]

@[simp] lemma createGaps_i (cfg : Config) (e : Engine) (B C : Bar) (d : Bool) (dr : ℚ) :
    (createGaps cfg e B C d dr).i = e.i := rfl

@[simp] lemma createGaps_levels (cfg : Config) (e : Engine) (B C : Bar) (d : Bool) (dr : ℚ) :
    (createGaps cfg e B C d dr).levels = e.levels := rfl

@[simp] lemma createGaps_pre_hi (cfg : Config) (e : Engine) (B C : Bar) (d : Bool) (dr : ℚ) :
    (createGaps cfg e B C d dr).pre_hi = e.pre_hi := rfl

@[simp] lemma createGaps_pre_lo (cfg : Config) (e : Engine) (B C : Bar) (d : Bool) (dr : ℚ) :
    (createGaps cfg e B C d dr).pre_lo = e.pre_lo := rfl

@[simp] lemma createGaps_last_bull (cfg : Config) (e : Engine) (B C : Bar) (d : Bool) (dr : ℚ) :
    (createGaps cfg e B C d dr).last_bull = bullGapOf cfg e B C d dr := rfl

@[simp] lemma createGaps_last_bear (cfg : Config) (e : Engine) (B C : Bar) (d : Bool) (dr : ℚ) :
    (createGaps cfg e B C d dr).last_bear = bearGapOf cfg e B C d dr := rfl

lemma bullResult_fst_last_bear (cfg : Config) (e : Engine) (C : Bar) (sw d : Bool) :
    (bullResult cfg e C sw d).1.last_bear = e.last_bear := by
  unfold bullResult; split <;> (try split) <;> rfl

lemma bullResult_fst_i (cfg : Config) (e : Engine) (C : Bar) (sw d : Bool) :
    (bullResult cfg e C sw d).1.i = e.i := by
  unfold bullResult; split <;> (try split) <;> rfl

lemma bullResult_fst_pre_hi (cfg : Config) (e : Engine) (C : Bar) (sw d : Bool) :
    (bullResult cfg e C sw d).1.pre_hi = e.pre_hi := by
  unfold bullResult; split <;> (try split) <;> rfl

lemma bullResult_fst_pre_lo (cfg : Config) (e : Engine) (C : Bar) (sw d : Bool) :
    (bullResult cfg e C sw d).1.pre_lo = e.pre_lo := by
  unfold bullResult; split <;> (try split) <;> rfl

lemma bearResult_fst_last_bull (cfg : Config) (e : Engine) (C : Bar) (sw d : Bool) :
    (bearResult cfg e C sw d).1.last_bull = e.last_bull := by
  unfold bearResult; split <;> (try split) <;> rfl

lemma bearResult_fst_pre_hi (cfg : Config) (e : Engine) (C : Bar) (sw d : Bool) :
    (bearResult cfg e C sw d).1.pre_hi = e.pre_hi := by
  unfold bearResult; split <;> (try split) <;> rfl

lemma bearResult_fst_pre_lo (cfg : Config) (e : Engine) (C : Bar) (sw d : Bool) :
    (bearResult cfg e C sw d).1.pre_lo = e.pre_lo := by
  unfold bearResult; split <;> (try split) <;> rfl

lemma mem_maybePost {cfg : Config} {ts : ℤ} {side : Side} {entry sl tp : ℚ} {s : Signal}
    (hs : s ∈ maybePost cfg ts side entry sl tp) :
    s = ⟨side, entry, sl, tp, ts⟩ ∧ inEntryWindow cfg ts = true := by
  unfold maybePost at hs
  by_cases hw : inEntryWindow cfg ts = true
  · simp [hw] at hs; exact ⟨hs, hw⟩
  · simp [Bool.not_eq_true] at hw; simp [hw] at hs

lemma maybePost_not_window {cfg : Config} {ts : ℤ} {side : Side} {entry sl tp : ℚ}
    (hw : inEntryWindow cfg ts = false) :
    maybePost cfg ts side entry sl tp = [] := by
  unfold maybePost; simp [hw]

lemma mem_bullResult_snd {cfg : Config} {e : Engine} {C : Bar} {sw d : Bool} {s : Signal}
    (hs : s ∈ (bullResult cfg e C sw d).2) :
    s.side = Side.long ∧ s.when = C.ts ∧ inEntryWindow cfg C.ts = true := by
  unfold bullResult at hs
  split at hs
  · split at hs
    · obtain ⟨rfl, hw⟩ := mem_maybePost hs
      exact ⟨rfl, rfl, hw⟩
    · simp at hs
  · simp at hs

lemma mem_bearResult_snd {cfg : Config} {e : Engine} {C : Bar} {sw d : Bool} {s : Signal}
    (hs : s ∈ (bearResult cfg e C sw d).2) :
    s.side = Side.short ∧ s.when = C.ts ∧ inEntryWindow cfg C.ts = true := by
  unfold bearResult at hs
  split at hs
  · split at hs
    · obtain ⟨rfl, hw⟩ := mem_maybePost hs
      exact ⟨rfl, rfl, hw⟩
    · simp at hs
  · simp at hs

lemma evalRoll_rollUpdate (cfg : Config) (e : Engine) (ts : ℤ) (o h l c : ℚ) :
    evalRoll cfg (rollUpdate cfg e ts o h l c) =
      returnPhase cfg
        (createGaps cfg (rollUpdate cfg e ts o h l c)
          (prevAOf e ts o h l c) (prevBOf e ts o h l c)
          (decide (cfg.disp_min ≤ dispRefOf cfg (prevAOf e ts o h l c) (prevBOf e ts o h l c)))
          (dispRefOf cfg (prevAOf e ts o h l c) (prevBOf e ts o h l c)))
        (prevBOf e ts o h l c)
        (decide (cfg.disp_min ≤ dispRefOf cfg (prevAOf e ts o h l c) (prevBOf e ts o h l c))) := by
  unfold evalRoll
  rw [rollUpdate_B, rollUpdate_C]

lemma onBar_roll {cfg : Config} {e : Engine} {ts : ℤ} {o h l c : ℚ} {cb : ℤ}
    (hb : e.bucket = some cb) (hne : Int.fdiv ts 60000 ≠ cb) :
    onBar cfg e ts o h l c = evalRoll cfg (rollUpdate cfg e ts o h l c) := by
  unfold onBar
  rw [hb]
  simp [hne]

lemma afterCreate_roll {cfg : Config} {e : Engine} {ts : ℤ} {o h l c : ℚ} {cb : ℤ}
    (hb : e.bucket = some cb) (hne : Int.fdiv ts 60000 ≠ cb) :
    afterCreate cfg e ts o h l c =
      createGaps cfg (rollUpdate cfg e ts o h l c)
        (prevAOf e ts o h l c) (prevBOf e ts o h l c)
        (decide (cfg.disp_min ≤ dispRefOf cfg (prevAOf e ts o h l c) (prevBOf e ts o h l c)))
        (dispRefOf cfg (prevAOf e ts o h l c) (prevBOf e ts o h l c)) := by
  unfold afterCreate
  rw [hb]
  simp [hne]

lemma onBar_init {cfg : Config} {e : Engine} {ts : ℤ} {o h l c : ℚ}
    (hb : e.bucket = none) :
    onBar cfg e ts o h l c = (initStep cfg e ts o h l c, []) := by
  unfold onBar
  rw [hb]

lemma onBar_intra {cfg : Config} {e : Engine} {ts : ℤ} {o h l c : ℚ} {cb : ℤ}
    (hb : e.bucket = some cb) (hx : Int.fdiv ts 60000 = cb) :
    onBar cfg e ts o h l c = (intraStep cfg e ts o h l c, []) := by
  unfold onBar
  rw [hb]
  simp [hx]

lemma afterCreate_init {cfg : Config} {e : Engine} {ts : ℤ} {o h l c : ℚ}
    (hb : e.bucket = none) :
    afterCreate cfg e ts o h l c = initStep cfg e ts o h l c := by
  unfold afterCreate
  rw [hb]

lemma afterCreate_intra {cfg : Config} {e : Engine} {ts : ℤ} {o h l c : ℚ} {cb : ℤ}
    (hb : e.bucket = some cb) (hx : Int.fdiv ts 60000 = cb) :
    afterCreate cfg e ts o h l c = intraStep cfg e ts o h l c := by
  unfold afterCreate
  rw [hb]
  simp [hx]

lemma initStep_last_bull (cfg : Config) (e : Engine) (ts : ℤ) (o h l c : ℚ) :
    (initStep cfg e ts o h l c).last_bull = e.last_bull := by
  unfold initStep; rw [updatePre10_last_bull]

lemma initStep_last_bear (cfg : Config) (e : Engine) (ts : ℤ) (o h l c : ℚ) :
    (initStep cfg e ts o h l c).last_bear = e.last_bear := by
  unfold initStep; rw [updatePre10_last_bear]

lemma intraStep_last_bull (cfg : Config) (e : Engine) (ts : ℤ) (o h l c : ℚ) :
    (intraStep cfg e ts o h l c).last_bull = e.last_bull := by
  unfold intraStep
  rcases e.A with _ | a <;> simp [updatePre10_last_bull]

lemma intraStep_last_bear (cfg : Config) (e : Engine) (ts : ℤ) (o h l c : ℚ) :
    (intraStep cfg e ts o h l c).last_bear = e.last_bear := by
  unfold intraStep
  rcases e.A with _ | a <;> simp [updatePre10_last_bear]

lemma sweptLow_congr {cfg : Config} {e₁ e₂ : Engine} {x : ℚ}
    (h1 : e₁.levels = e₂.levels) (h2 : e₁.pre_lo = e₂.pre_lo) :
    sweptLow cfg e₁ x = sweptLow cfg e₂ x := by
  unfold sweptLow; rw [h1, h2]

lemma sweptHigh_congr {cfg : Config} {e₁ e₂ : Engine} {x : ℚ}
    (h1 : e₁.levels = e₂.levels) (h2 : e₁.pre_hi = e₂.pre_hi) :
    sweptHigh cfg e₁ x = sweptHigh cfg e₂ x := by
  unfold sweptHigh; rw [h1, h2]

lemma maybePost_window {cfg : Config} {ts : ℤ} {side : Side} {entry sl tp : ℚ}
    (hw : inEntryWindow cfg ts = true) :
    maybePost cfg ts side entry sl tp = [⟨side, entry, sl, tp, ts⟩] := by
  unfold maybePost; simp [hw]

lemma bullResult_none {cfg : Config} {e : Engine} {C : Bar} {sw d : Bool}
    (hg : e.last_bull = none) :
    bullResult cfg e C sw d = (e, []) := by
  unfold bullResult; rw [hg]

lemma bearResult_none {cfg : Config} {e : Engine} {C : Bar} {sw d : Bool}
    (hg : e.last_bear = none) :
    bearResult cfg e C sw d = (e, []) := by
  unfold bearResult; rw [hg]

lemma bullResult_fires {cfg : Config} {e : Engine} {C : Bar} {sw d : Bool} {g : FVG}
    (hg : e.last_bull = some g) (h1 : e.i - g.i ≤ cfg.ret_max_bars)
    (h2 : C.l ≤ g.gap_top) (hsw : sw = true) (hd : d = true) :
    bullResult cfg e C sw d =
      ({ e with last_bull := none },
        maybePost cfg C.ts Side.long g.gap_top (g.c1_low - cfg.sl_buffer)
          (g.gap_top + (g.gap_top - (g.c1_low - cfg.sl_buffer)) * cfg.tp_rr)) := by
  subst hsw; subst hd
  unfold bullResult
  rw [hg]
  simp [h1, h2]

lemma bearResult_fires {cfg : Config} {e : Engine} {C : Bar} {sw d : Bool} {g : FVG}
    (hg : e.last_bear = some g) (h1 : e.i - g.i ≤ cfg.ret_max_bars)
    (h2 : g.gap_bot ≤ C.h) (hsw : sw = true) (hd : d = true) :
    bearResult cfg e C sw d =
      ({ e with last_bear := none },
        maybePost cfg C.ts Side.short g.gap_bot (g.c1_high + cfg.sl_buffer)
          (g.gap_bot - ((g.c1_high + cfg.sl_buffer) - g.gap_bot) * cfg.tp_rr)) := by
  subst hsw; subst hd
  unfold bearResult
  rw [hg]
  simp [h1, h2]

lemma bullResult_stale {cfg : Config} {e : Engine} {C : Bar} {sw d : Bool} {g : FVG}
    (hg : e.last_bull = some g) (h1 : cfg.ret_max_bars < e.i - g.i) :
    bullResult cfg e C sw d = (e, []) := by
  unfold bullResult
  rw [hg]
  simp [not_le.mpr h1]

lemma bearResult_stale {cfg : Config} {e : Engine} {C : Bar} {sw d : Bool} {g : FVG}
    (hg : e.last_bear = some g) (h1 : cfg.ret_max_bars < e.i - g.i) :
    bearResult cfg e C sw d = (e, []) := by
  unfold bearResult
  rw [hg]
  simp [not_le.mpr h1]

lemma bullResult_fire_form {cfg : Config} {e : Engine} {C : Bar} {sw d : Bool} {g : FVG}
    (hg : e.last_bull = some g)
    (hc : (decide (e.i - g.i ≤ cfg.ret_max_bars) && decide (C.l ≤ g.gap_top) &&
      sw && d) = true) :
    bullResult cfg e C sw d =
      ({ e with last_bull := none },
        maybePost cfg C.ts Side.long g.gap_top (g.c1_low - cfg.sl_buffer)
          (g.gap_top + (g.gap_top - (g.c1_low - cfg.sl_buffer)) * cfg.tp_rr)) := by
  unfold bullResult
  simp only [hg]
  rw [hc]
  simp

lemma bullResult_no_fire {cfg : Config} {e : Engine} {C : Bar} {sw d : Bool} {g : FVG}
    (hg : e.last_bull = some g)
    (hc : (decide (e.i - g.i ≤ cfg.ret_max_bars) && decide (C.l ≤ g.gap_top) &&
      sw && d) = false) :
    bullResult cfg e C sw d = (e, []) := by
  unfold bullResult
  simp only [hg]
  rw [hc]
  simp

lemma bearResult_fire_form {cfg : Config} {e : Engine} {C : Bar} {sw d : Bool} {g : FVG}
    (hg : e.last_bear = some g)
    (hc : (decide (e.i - g.i ≤ cfg.ret_max_bars) && decide (g.gap_bot ≤ C.h) &&
      sw && d) = true) :
    bearResult cfg e C sw d =
      ({ e with last_bear := none },
        maybePost cfg C.ts Side.short g.gap_bot (g.c1_high + cfg.sl_buffer)
          (g.gap_bot - ((g.c1_high + cfg.sl_buffer) - g.gap_bot) * cfg.tp_rr)) := by
  unfold bearResult
  simp only [hg]
  rw [hc]
  simp

lemma bearResult_no_fire {cfg : Config} {e : Engine} {C : Bar} {sw d : Bool} {g : FVG}
    (hg : e.last_bear = some g)
    (hc : (decide (e.i - g.i ≤ cfg.ret_max_bars) && decide (g.gap_bot ≤ C.h) &&
      sw && d) = false) :
    bearResult cfg e C sw d = (e, []) := by
  unfold bearResult
  simp only [hg]
  rw [hc]
  simp

lemma returnPhase_fst (cfg : Config) (e : Engine) (C : Bar) (d : Bool) :
    (returnPhase cfg e C d).1 =
      (bearResult cfg (bullResult cfg e C (sweptLow cfg e C.l) d).1 C
        (sweptHigh cfg e C.h) d).1 := rfl

lemma returnPhase_snd (cfg : Config) (e : Engine) (C : Bar) (d : Bool) :
    (returnPhase cfg e C d).2 =
      (bullResult cfg e C (sweptLow cfg e C.l) d).2 ++
        (bearResult cfg (bullResult cfg e C (sweptLow cfg e C.l) d).1 C
          (sweptHigh cfg e C.h) d).2 := rfl

lemma returnPhase_fst_pre_hi (cfg : Config) (e : Engine) (C : Bar) (d : Bool) :
    (returnPhase cfg e C d).1.pre_hi = e.pre_hi := by
  unfold returnPhase
  rw [bearResult_fst_pre_hi, bullResult_fst_pre_hi]

lemma returnPhase_fst_pre_lo (cfg : Config) (e : Engine) (C : Bar) (d : Bool) :
    (returnPhase cfg e C d).1.pre_lo = e.pre_lo := by
  unfold returnPhase
  rw [bearResult_fst_pre_lo, bullResult_fst_pre_lo]

lemma countLong_append (a b : List Signal) :
    countLong (a ++ b) = countLong a + countLong b := by
  induction a with
  | nil => simp [countLong]
  | cons s rest ih => simp [countLong, ih]; omega

lemma countShort_append (a b : List Signal) :
    countShort (a ++ b) = countShort a + countShort b := by
  induction a with
  | nil => simp [countShort]
  | cons s rest ih => simp [countShort, ih]; omega

lemma countLong_maybePost_le (cfg : Config) (ts : ℤ) (side : Side) (a b t : ℚ) :
    countLong (maybePost cfg ts side a b t) ≤ 1 := by
  unfold maybePost
  split
  · simp [countLong]; split <;> simp
  · simp [countLong]

lemma countShort_maybePost_le (cfg : Config) (ts : ℤ) (side : Side) (a b t : ℚ) :
    countShort (maybePost cfg ts side a b t) ≤ 1 := by
  unfold maybePost
  split
  · simp [countShort]; split <;> simp
  · simp [countShort]

lemma countLong_maybePost_short {cfg : Config} {ts : ℤ} {a b t : ℚ} :
    countLong (maybePost cfg ts Side.short a b t) = 0 := by
  unfold maybePost
  split <;> simp [countLong]

lemma countShort_maybePost_long {cfg : Config} {ts : ℤ} {a b t : ℚ} :
    countShort (maybePost cfg ts Side.long a b t) = 0 := by
  unfold maybePost
  split <;> simp [countShort]

lemma countLong_bearResult (cfg : Config) (e : Engine) (C : Bar) (sw d : Bool) :
    countLong (bearResult cfg e C sw d).2 = 0 := by
  unfold bearResult
  split
  · split
    · exact countLong_maybePost_short
    · simp [countLong]
  · simp [countLong]

lemma countShort_bullResult (cfg : Config) (e : Engine) (C : Bar) (sw d : Bool) :
    countShort (bullResult cfg e C sw d).2 = 0 := by
  unfold bullResult
  split
  · split
    · exact countShort_maybePost_long
    · simp [countShort]
  · simp [countShort]

lemma pendingOpt_le_one (v : Option FVG) : pendingOpt v ≤ 1 := by
  cases v <;> simp [pendingOpt]

lemma bullResult_bound (cfg : Config) (e : Engine) (C : Bar) (sw d : Bool) :
    countLong (bullResult cfg e C sw d).2 + pendingBull (bullResult cfg e C sw d).1 ≤
      pendingBull e := by
  rcases hg : e.last_bull with _ | g
  · rw [bullResult_none hg]
    simp [countLong, pendingBull, pendingOpt, hg]
  · by_cases hc : (decide (e.i - g.i ≤ cfg.ret_max_bars) && decide (C.l ≤ g.gap_top) &&
        sw && d) = true
    · rw [bullResult_fire_form hg hc]
      have hle := countLong_maybePost_le cfg C.ts Side.long g.gap_top
        (g.c1_low - cfg.sl_buffer)
        (g.gap_top + (g.gap_top - (g.c1_low - cfg.sl_buffer)) * cfg.tp_rr)
      simp only [pendingBull, pendingOpt, hg]
      omega
    · simp only [Bool.not_eq_true] at hc
      rw [bullResult_no_fire hg hc]
      simp [countLong, pendingBull, pendingOpt, hg]

lemma bearResult_bound (cfg : Config) (e : Engine) (C : Bar) (sw d : Bool) :
    countShort (bearResult cfg e C sw d).2 + pendingBear (bearResult cfg e C sw d).1 ≤
      pendingBear e := by
  rcases hg : e.last_bear with _ | g
  · rw [bearResult_none hg]
    simp [countShort, pendingBear, pendingOpt, hg]
  · by_cases hc : (decide (e.i - g.i ≤ cfg.ret_max_bars) && decide (g.gap_bot ≤ C.h) &&
        sw && d) = true
    · rw [bearResult_fire_form hg hc]
      have hle := countShort_maybePost_le cfg C.ts Side.short g.gap_bot
        (g.c1_high + cfg.sl_buffer)
        (g.gap_bot - ((g.c1_high + cfg.sl_buffer) - g.gap_bot) * cfg.tp_rr)
      simp only [pendingBear, pendingOpt, hg]
      omega
    · simp only [Bool.not_eq_true] at hc
      rw [bearResult_no_fire hg hc]
      simp [countShort, pendingBear, pendingOpt, hg]

lemma returnPhase_bull_bound (cfg : Config) (e : Engine) (C : Bar) (d : Bool) :
    countLong (returnPhase cfg e C d).2 + pendingBull (returnPhase cfg e C d).1 ≤
      pendingBull e := by
  rw [returnPhase_fst, returnPhase_snd, countLong_append, countLong_bearResult]
  have h1 := bullResult_bound cfg e C (sweptLow cfg e C.l) d
  have h2 : pendingBull (bearResult cfg (bullResult cfg e C (sweptLow cfg e C.l) d).1 C
      (sweptHigh cfg e C.h) d).1 = pendingBull (bullResult cfg e C (sweptLow cfg e C.l) d).1 := by
    unfold pendingBull
    rw [bearResult_fst_last_bull]
  omega

lemma returnPhase_bear_bound (cfg : Config) (e : Engine) (C : Bar) (d : Bool) :
    countShort (returnPhase cfg e C d).2 + pendingBear (returnPhase cfg e C d).1 ≤
      pendingBear e := by
  rw [returnPhase_fst, returnPhase_snd, countShort_append, countShort_bullResult]
  have h1 := bearResult_bound cfg (bullResult cfg e C (sweptLow cfg e C.l) d).1 C
    (sweptHigh cfg e C.h) d
  have h2 : pendingBear (bullResult cfg e C (sweptLow cfg e C.l) d).1 = pendingBear e := by
    unfold pendingBear
    rw [bullResult_fst_last_bear]
  omega

lemma bullGapOf_cases (cfg : Config) (e : Engine) (B C : Bar) (d : Bool) (dr : ℚ) :
    bullGapOf cfg e B C d dr = e.last_bull ∨ bullCreatedCond cfg e B C d = true := by
  unfold bullGapOf bullCreatedCond
  cases d
  · simp
  · by_cases hm : cfg.mode3c = true
    · simp only [hm, if_true, Bool.true_and]
      rcases hA : e.A with _ | A
      · simp
      · by_cases hgap : cfg.fvg_min ≤ C.l - A.h
        · simp [hgap]
        · simp [hgap]
    · have hm' : cfg.mode3c = false := by
        revert hm; cases cfg.mode3c <;> simp
      simp only [hm', if_false, Bool.true_and]
      by_cases hgap : cfg.fvg_min ≤ C.l - B.h
      · simp [hgap]
      · simp [hgap]

lemma bearGapOf_cases (cfg : Config) (e : Engine) (B C : Bar) (d : Bool) (dr : ℚ) :
    bearGapOf cfg e B C d dr = e.last_bear ∨ bearCreatedCond cfg e B C d = true := by
  unfold bearGapOf bearCreatedCond
  cases d
  · simp
  · by_cases hm : cfg.mode3c = true
    · simp only [hm, if_true, Bool.true_and]
      rcases hA : e.A with _ | A
      · simp
      · by_cases hgap : cfg.fvg_min ≤ A.l - C.h
        · simp [hgap]
        · simp [hgap]
    · have hm' : cfg.mode3c = false := by
        revert hm; cases cfg.mode3c <;> simp
      simp only [hm', if_false, Bool.true_and]
      by_cases hgap : cfg.fvg_min ≤ B.l - C.h
      · simp [hgap]
      · simp [hgap]

lemma createGaps_bull_bound (cfg : Config) (e : Engine) (B C : Bar) (d : Bool) (dr : ℚ) :
    pendingBull (createGaps cfg e B C d dr) ≤
      (if bullCreatedCond cfg e B C d then 1 else 0) + pendingBull e := by
  unfold pendingBull
  rw [createGaps_last_bull]
  rcases bullGapOf_cases cfg e B C d dr with hcase | hcase
  · rw [hcase]
    split <;> omega
  · have := pendingOpt_le_one (bullGapOf cfg e B C d dr)
    simp [hcase]
    omega

lemma createGaps_bear_bound (cfg : Config) (e : Engine) (B C : Bar) (d : Bool) (dr : ℚ) :
    pendingBear (createGaps cfg e B C d dr) ≤
      (if bearCreatedCond cfg e B C d then 1 else 0) + pendingBear e := by
  unfold pendingBear
  rw [createGaps_last_bear]
  rcases bearGapOf_cases cfg e B C d dr with hcase | hcase
  · rw [hcase]
    split <;> omega
  · have := pendingOpt_le_one (bearGapOf cfg e B C d dr)
    simp [hcase]
    omega

lemma hiWidens_trans : ∀ {a b c : Option ℚ}, hiWidens a b → hiWidens b c → hiWidens a c := by
  intro a b c h1 h2
  cases a with
  | none => simp [hiWidens]
  | some x =>
    cases b with
    | none => exact absurd h1 (by simp [hiWidens])
    | some y =>
      cases c with
      | none => exact absurd h2 (by simp [hiWidens])
      | some z =>
        simp only [hiWidens] at h1 h2 ⊢
        exact le_trans h1 h2

lemma loWidens_trans : ∀ {a b c : Option ℚ}, loWidens a b → loWidens b c → loWidens a c := by
  intro a b c h1 h2
  cases a with
  | none => simp [loWidens]
  | some x =>
    cases b with
    | none => exact absurd h1 (by simp [loWidens])
    | some y =>
      cases c with
      | none => exact absurd h2 (by simp [loWidens])
      | some z =>
        simp only [loWidens] at h1 h2 ⊢
        exact le_trans h2 h1

lemma updatePre10_hiWidens (cfg : Config) (e : Engine) (ts : ℤ) (h l : ℚ) :
    hiWidens e.pre_hi (updatePre10 cfg e ts h l).pre_hi := by
  unfold updatePre10
  split
  · rcases e.pre_hi with _ | x
    · simp [hiWidens]
    · simp only [hiWidens]
      split
      · exact le_of_lt (by assumption)
      · exact le_refl x
  · rcases e.pre_hi with _ | x <;> simp [hiWidens]

lemma updatePre10_loWidens (cfg : Config) (e : Engine) (ts : ℤ) (h l : ℚ) :
    loWidens e.pre_lo (updatePre10 cfg e ts h l).pre_lo := by
  unfold updatePre10
  split
  · rcases e.pre_lo with _ | x
    · simp [loWidens]
    · simp only [loWidens]
      split
      · exact le_of_lt (by assumption)
      · exact le_refl x
  · rcases e.pre_lo with _ | x <;> simp [loWidens]

lemma updatePre10_frozen {cfg : Config} {e : Engine} {ts : ℤ} {h l : ℚ}
    (h10 : 10 ≤ localHour cfg ts) : updatePre10 cfg e ts h l = e := by
  unfold updatePre10
  have hlt : ¬ (localHour cfg ts < 10) := not_lt.mpr h10
  simp [hlt]

lemma updatePre10_pre_hi_congr {cfg : Config} {e₁ e₂ : Engine} {ts : ℤ} {h l : ℚ}
    (h1 : e₁.pre_hi = e₂.pre_hi) :
    (updatePre10 cfg e₁ ts h l).pre_hi = (updatePre10 cfg e₂ ts h l).pre_hi := by
  unfold updatePre10
  by_cases hc : (cfg.pre10 && decide (localHour cfg ts < 10)) = true
  · simp [hc, h1]
  · simp only [Bool.not_eq_true] at hc
    simp [hc, h1]

lemma updatePre10_pre_lo_congr {cfg : Config} {e₁ e₂ : Engine} {ts : ℤ} {h l : ℚ}
    (h2 : e₁.pre_lo = e₂.pre_lo) :
    (updatePre10 cfg e₁ ts h l).pre_lo = (updatePre10 cfg e₂ ts h l).pre_lo := by
  unfold updatePre10
  by_cases hc : (cfg.pre10 && decide (localHour cfg ts < 10)) = true
  · simp [hc, h2]
  · simp only [Bool.not_eq_true] at hc
    simp [hc, h2]

lemma step_fst_pre (cfg : Config) (e : Engine) (x : Obs) :
    (step cfg e x).1.pre_hi = (updatePre10 cfg e x.ts x.h x.l).pre_hi ∧
    (step cfg e x).1.pre_lo = (updatePre10 cfg e x.ts x.h x.l).pre_lo := by
  unfold step
  rcases hb : e.bucket with _ | cb
  · rw [onBar_init hb]
    unfold initStep
    exact ⟨updatePre10_pre_hi_congr rfl, updatePre10_pre_lo_congr rfl⟩
  · by_cases hx : Int.fdiv x.ts 60000 = cb
    · rw [onBar_intra hb hx]
      unfold intraStep
      rcases hA : e.A with _ | a
      · exact ⟨updatePre10_pre_hi_congr rfl, updatePre10_pre_lo_congr rfl⟩
      · exact ⟨updatePre10_pre_hi_congr rfl, updatePre10_pre_lo_congr rfl⟩
    · rw [onBar_roll hb hx, evalRoll_rollUpdate]
      constructor
      · rw [returnPhase_fst_pre_hi, createGaps_pre_hi]
        unfold rollUpdate
        exact updatePre10_pre_hi_congr rfl
      · rw [returnPhase_fst_pre_lo, createGaps_pre_lo]
        unfold rollUpdate
        exact updatePre10_pre_lo_congr rfl

lemma step_hiWidens (cfg : Config) (e : Engine) (x : Obs) :
    hiWidens e.pre_hi (step cfg e x).1.pre_hi := by
  rw [(step_fst_pre cfg e x).1]
  exact updatePre10_hiWidens cfg e x.ts x.h x.l

lemma step_loWidens (cfg : Config) (e : Engine) (x : Obs) :
    loWidens e.pre_lo (step cfg e x).1.pre_lo := by
  rw [(step_fst_pre cfg e x).2]
  exact updatePre10_loWidens cfg e x.ts x.h x.l

lemma step_bull_bound (cfg : Config) (e : Engine) (x : Obs) :
    countLong (step cfg e x).2 + pendingBull (step cfg e x).1 ≤
      (if bullCreated cfg e x then 1 else 0) + pendingBull e := by
  unfold step bullCreated
  rcases hb : e.bucket with _ | cb
  · rw [onBar_init hb]
    have h1 : pendingBull (initStep cfg e x.ts x.o x.h x.l x.c) = pendingBull e := by
      unfold pendingBull
      rw [initStep_last_bull]
    simp [countLong, h1]
  · by_cases hx : Int.fdiv x.ts 60000 = cb
    · rw [onBar_intra hb hx]
      have h1 : pendingBull (intraStep cfg e x.ts x.o x.h x.l x.c) = pendingBull e := by
        unfold pendingBull
        rw [intraStep_last_bull]
      simp [countLong, h1, hx]
    · rw [onBar_roll hb hx, evalRoll_rollUpdate]
      simp only [hx, if_neg, if_false]
      have h1 := returnPhase_bull_bound cfg
        (createGaps cfg (rollUpdate cfg e x.ts x.o x.h x.l x.c)
          (prevAOf e x.ts x.o x.h x.l x.c) (prevBOf e x.ts x.o x.h x.l x.c)
          (decide (cfg.disp_min ≤
            dispRefOf cfg (prevAOf e x.ts x.o x.h x.l x.c) (prevBOf e x.ts x.o x.h x.l x.c)))
          (dispRefOf cfg (prevAOf e x.ts x.o x.h x.l x.c) (prevBOf e x.ts x.o x.h x.l x.c)))
        (prevBOf e x.ts x.o x.h x.l x.c)
        (decide (cfg.disp_min ≤
          dispRefOf cfg (prevAOf e x.ts x.o x.h x.l x.c) (prevBOf e x.ts x.o x.h x.l x.c)))
      have h2 := createGaps_bull_bound cfg (rollUpdate cfg e x.ts x.o x.h x.l x.c)
        (prevAOf e x.ts x.o x.h x.l x.c) (prevBOf e x.ts x.o x.h x.l x.c)
        (decide (cfg.disp_min ≤
          dispRefOf cfg (prevAOf e x.ts x.o x.h x.l x.c) (prevBOf e x.ts x.o x.h x.l x.c)))
        (dispRefOf cfg (prevAOf e x.ts x.o x.h x.l x.c) (prevBOf e x.ts x.o x.h x.l x.c))
      have h3 : pendingBull (rollUpdate cfg e x.ts x.o x.h x.l x.c) = pendingBull e := by
        unfold pendingBull
        rw [rollUpdate_last_bull]
      omega

lemma step_bear_bound (cfg : Config) (e : Engine) (x : Obs) :
    countShort (step cfg e x).2 + pendingBear (step cfg e x).1 ≤
      (if bearCreated cfg e x then 1 else 0) + pendingBear e := by
  unfold step bearCreated
  rcases hb : e.bucket with _ | cb
  · rw [onBar_init hb]
    have h1 : pendingBear (initStep cfg e x.ts x.o x.h x.l x.c) = pendingBear e := by
      unfold pendingBear
      rw [initStep_last_bear]
    simp [countShort, h1]
  · by_cases hx : Int.fdiv x.ts 60000 = cb
    · rw [onBar_intra hb hx]
      have h1 : pendingBear (intraStep cfg e x.ts x.o x.h x.l x.c) = pendingBear e := by
        unfold pendingBear
        rw [intraStep_last_bear]
      simp [countShort, h1, hx]
    · rw [onBar_roll hb hx, evalRoll_rollUpdate]
      simp only [hx, if_neg, if_false]
      have h1 := returnPhase_bear_bound cfg
        (createGaps cfg (rollUpdate cfg e x.ts x.o x.h x.l x.c)
          (prevAOf e x.ts x.o x.h x.l x.c) (prevBOf e x.ts x.o x.h x.l x.c)
          (decide (cfg.disp_min ≤
            dispRefOf cfg (prevAOf e x.ts x.o x.h x.l x.c) (prevBOf e x.ts x.o x.h x.l x.c)))
          (dispRefOf cfg (prevAOf e x.ts x.o x.h x.l x.c) (prevBOf e x.ts x.o x.h x.l x.c)))
        (prevBOf e x.ts x.o x.h x.l x.c)
        (decide (cfg.disp_min ≤
          dispRefOf cfg (prevAOf e x.ts x.o x.h x.l x.c) (prevBOf e x.ts x.o x.h x.l x.c)))
      have h2 := createGaps_bear_bound cfg (rollUpdate cfg e x.ts x.o x.h x.l x.c)
        (prevAOf e x.ts x.o x.h x.l x.c) (prevBOf e x.ts x.o x.h x.l x.c)
        (decide (cfg.disp_min ≤
          dispRefOf cfg (prevAOf e x.ts x.o x.h x.l x.c) (prevBOf e x.ts x.o x.h x.l x.c)))
        (dispRefOf cfg (prevAOf e x.ts x.o x.h x.l x.c) (prevBOf e x.ts x.o x.h x.l x.c))
      have h3 : pendingBear (rollUpdate cfg e x.ts x.o x.h x.l x.c) = pendingBear e := by
        unfold pendingBear
        rw [rollUpdate_last_bear]
      omega

lemma mem_bullResult_consumed {cfg : Config} {e : Engine} {C : Bar} {sw d : Bool} {s : Signal}
    (hs : s ∈ (bullResult cfg e C sw d).2) :
    (bullResult cfg e C sw d).1.last_bull = none := by
  rcases hg : e.last_bull with _ | g
  · rw [bullResult_none hg] at hs
    simp at hs
  · by_cases hc : (decide (e.i - g.i ≤ cfg.ret_max_bars) && decide (C.l ≤ g.gap_top) &&
        sw && d) = true
    · rw [bullResult_fire_form hg hc]
    · simp only [Bool.not_eq_true] at hc
      rw [bullResult_no_fire hg hc] at hs
      simp at hs

lemma mem_bearResult_consumed {cfg : Config} {e : Engine} {C : Bar} {sw d : Bool} {s : Signal}
    (hs : s ∈ (bearResult cfg e C sw d).2) :
    (bearResult cfg e C sw d).1.last_bear = none := by
  rcases hg : e.last_bear with _ | g
  · rw [bearResult_none hg] at hs
    simp at hs
  · by_cases hc : (decide (e.i - g.i ≤ cfg.ret_max_bars) && decide (g.gap_bot ≤ C.h) &&
        sw && d) = true
    · rw [bearResult_fire_form hg hc]
    · simp only [Bool.not_eq_true] at hc
      rw [bearResult_no_fire hg hc] at hs
      simp at hs

lemma run_nil (cfg : Config) (e : Engine) : run cfg e [] = (e, []) := rfl

lemma run_cons_fst (cfg : Config) (e : Engine) (x : Obs) (xs : List Obs) :
    (run cfg e (x :: xs)).1 = (run cfg (step cfg e x).1 xs).1 := rfl

lemma run_cons_snd (cfg : Config) (e : Engine) (x : Obs) (xs : List Obs) :
    (run cfg e (x :: xs)).2 = (step cfg e x).2 ++ (run cfg (step cfg e x).1 xs).2 := rfl

lemma bullResult_snd_not_window {cfg : Config} {e : Engine} {C : Bar} {sw d : Bool}
    (hw : inEntryWindow cfg C.ts = false) :
    (bullResult cfg e C sw d).2 = [] := by
  rcases hg : e.last_bull with _ | g
  · rw [bullResult_none hg]
  · by_cases hc : (decide (e.i - g.i ≤ cfg.ret_max_bars) && decide (C.l ≤ g.gap_top) &&
        sw && d) = true
    · rw [bullResult_fire_form hg hc]
      exact maybePost_not_window hw
    · simp only [Bool.not_eq_true] at hc
      rw [bullResult_no_fire hg hc]

lemma bearResult_snd_not_window {cfg : Config} {e : Engine} {C : Bar} {sw d : Bool}
    (hw : inEntryWindow cfg C.ts = false) :
    (bearResult cfg e C sw d).2 = [] := by
  rcases hg : e.last_bear with _ | g
  · rw [bearResult_none hg]
  · by_cases hc : (decide (e.i - g.i ≤ cfg.ret_max_bars) && decide (g.gap_bot ≤ C.h) &&
        sw && d) = true
    · rw [bearResult_fire_form hg hc]
      exact maybePost_not_window hw
    · simp only [Bool.not_eq_true] at hc
      rw [bearResult_no_fire hg hc]

/-! The ten claims, one theorem each. -/

/-- C10: an intraminute observation (same minute bucket as the current one,
after the first observation) only expands the in-progress bar A — high maxed,
low minned, close and timestamp taken from the observation, open kept — and
feeds the pre-cutoff swing memory; the bar index, the completed bars B and C,
both pending gaps and the bucket are unchanged, and the call emits no
signal. -/
theorem c10_intraminute_frame (cfg : Config) (e : Engine) (x : Obs) (cb : ℤ) (a : Bar)
    (hb : e.bucket = some cb) (hx : Int.fdiv x.ts 60000 = cb) (ha : e.A = some a) :
    (step cfg e x).2 = [] ∧
    (step cfg e x).1 =
      updatePre10 cfg { e with A := some ⟨x.ts, a.o, max a.h x.h, min a.l x.l, x.c⟩ }
        x.ts x.h x.l ∧
    (step cfg e x).1.i = e.i ∧ (step cfg e x).1.B = e.B ∧ (step cfg e x).1.C = e.C ∧
    (step cfg e x).1.last_bull = e.last_bull ∧ (step cfg e x).1.last_bear = e.last_bear ∧
    (step cfg e x).1.bucket = e.bucket := by
  unfold step
  rw [onBar_intra hb hx]
  refine ⟨rfl, ?_, ?_, ?_, ?_, ?_, ?_, ?_⟩
  · unfold intraStep
    rw [ha]
  · unfold intraStep
    rw [updatePre10_i, ha]
  · unfold intraStep
    rw [updatePre10_B, ha]
  · unfold intraStep
    rw [updatePre10_C, ha]
  · unfold intraStep
    rw [updatePre10_last_bull, ha]
  · unfold intraStep
    rw [updatePre10_last_bear, ha]
  · unfold intraStep
    rw [updatePre10_bucket, ha]

/-- Witness for C10 at a concrete intraminute observation. -/
theorem c10_intraminute_frame_witness : (step cfgStd c10Eng c10Obs).2 = [] :=
  (c10_intraminute_frame cfgStd c10Eng c10Obs 5 ⟨300000, 100, 101, 99, 100⟩
    rfl (by with_unfolding_all decide) rfl).1

/-- C9: across any observation sequence the internal swing extrema only widen
(`pre_hi` never decreases or disappears, `pre_lo` never increases or
disappears), and any single observation whose local hour is at or past the
10:00 cutoff leaves both extrema exactly unchanged. -/
theorem c9_swing_monotone_frozen :
    (∀ (cfg : Config) (e : Engine) (obs : List Obs),
        hiWidens e.pre_hi (run cfg e obs).1.pre_hi ∧
        loWidens e.pre_lo (run cfg e obs).1.pre_lo) ∧
    (∀ (cfg : Config) (e : Engine) (x : Obs), 10 ≤ localHour cfg x.ts →
        (step cfg e x).1.pre_hi = e.pre_hi ∧ (step cfg e x).1.pre_lo = e.pre_lo) := by
  constructor
  · intro cfg e obs
    induction obs generalizing e with
    | nil =>
      constructor
      · show hiWidens e.pre_hi e.pre_hi
        cases e.pre_hi <;> simp [hiWidens]
      · show loWidens e.pre_lo e.pre_lo
        cases e.pre_lo <;> simp [loWidens]
    | cons x xs ih =>
      rw [run_cons_fst]
      constructor
      · exact hiWidens_trans (step_hiWidens cfg e x) (ih (step cfg e x).1).1
      · exact loWidens_trans (step_loWidens cfg e x) (ih (step cfg e x).1).2
  · intro cfg e x h10
    obtain ⟨h1, h2⟩ := step_fst_pre cfg e x
    rw [h1, h2, updatePre10_frozen h10]
    exact ⟨rfl, rfl⟩

/-- Witness for C9: a concrete widening run and a concrete frozen post-cutoff
observation (11:00 local). -/
theorem c9_swing_monotone_frozen_witness :
    (hiWidens c9Eng.pre_hi (run cfgPre c9Eng [c9Obs]).1.pre_hi ∧
      loWidens c9Eng.pre_lo (run cfgPre c9Eng [c9Obs]).1.pre_lo) ∧
    ((step cfgPre c9Eng c9Obs).1.pre_hi = c9Eng.pre_hi ∧
      (step cfgPre c9Eng c9Obs).1.pre_lo = c9Eng.pre_lo) :=
  ⟨c9_swing_monotone_frozen.1 cfgPre c9Eng [c9Obs],
    c9_swing_monotone_frozen.2 cfgPre c9Eng c9Obs (by with_unfolding_all decide)⟩

/-- C6 counterexample: an inverted observation (high 99 < low 101) fed to a
fresh engine is not rejected — the ingestion entry point performs no
validation: the state is mutated (bucket set, the inverted bar stored as the
in-progress bar) and the call returns no error indication of any kind. -/
theorem c6_counterexample :
    ((99 : ℚ) < 101) ∧
    (onBar cfgStd (initEngine levelsNone) 0 100 99 101 100).1 ≠ initEngine levelsNone ∧
    (onBar cfgStd (initEngine levelsNone) 0 100 99 101 100).1.bucket = some 0 ∧
    (onBar cfgStd (initEngine levelsNone) 0 100 99 101 100).1.A =
      some (mkBar 0 100 99 101 100) ∧
    (onBar cfgStd (initEngine levelsNone) 0 100 99 101 100).2 = [] := by
  with_unfolding_all decide

/-- C6 (amended): malformed observations are not rejected: `on_bar` has no
validation, so even an inverted bar (high < low) is processed by the normal
rules — the first observation seeds the bucket and stores the inverted bar —
and the caller gets no error result. -/
theorem c6_no_validation (L : Levels) (cfg : Config) (ts : ℤ) (o h l c : ℚ)
    (_hinv : h < l) :
    (onBar cfg (initEngine L) ts o h l c).1.bucket = some (Int.fdiv ts 60000) ∧
    (onBar cfg (initEngine L) ts o h l c).1.A = some (mkBar ts o h l c) ∧
    (onBar cfg (initEngine L) ts o h l c).2 = [] := by
  have hb : (initEngine L).bucket = none := rfl
  rw [onBar_init hb]
  refine ⟨?_, ?_, rfl⟩
  · unfold initStep
    rw [updatePre10_bucket]
  · unfold initStep
    rw [updatePre10_A]

/-- Witness for the amended C6 at the inverted bar (o=100, h=99, l=101). -/
theorem c6_no_validation_witness :
    (onBar cfgStd (initEngine levelsNone) 0 100 99 101 100).1.bucket =
      some (Int.fdiv 0 60000) ∧
    (onBar cfgStd (initEngine levelsNone) 0 100 99 101 100).1.A =
      some (mkBar 0 100 99 101 100) ∧
    (onBar cfgStd (initEngine levelsNone) 0 100 99 101 100).2 = [] :=
  c6_no_validation levelsNone cfgStd 0 100 99 101 100 (by with_unfolding_all decide)

/-- C1 (evaluation at the failing input): after seeding and the displacement
candle (99,105,98,104), the evaluation window holds the oldest completed bar
(100,101,99,100) and the newest observation (103,110,102,109).  The claimed
bullish condition — newest low 102 minus oldest high 101 at least
`fvg_min` — holds and the displacement reference qualifies, yet the code
creates no bullish gap; it instead stores a *bearish* gap at those prices
whose source-candle fields are taken from the newest bar (102/110), because
the roll leaves the oldest bar in slot C and the newest in slot A while the
gap comparisons read `C.l − A.h`. -/
theorem c1_roles_swapped_eval :
    dispOkAt cfgStd c1Pre 180000 103 110 102 109 = true ∧
    cfgStd.fvg_min ≤ (102 : ℚ) - (prevBOf c1Pre 180000 103 110 102 109).h ∧
    (onBar cfgStd c1Pre 180000 103 110 102 109).1.last_bull = none ∧
    (onBar cfgStd c1Pre 180000 103 110 102 109).1.last_bear =
      some ⟨3, 102, 101, 5/7, 102, 110⟩ ∧
    (onBar cfgStd c1Pre 180000 103 110 102 109).2 = [] := by
  with_unfolding_all decide

/-- C3 (evaluation at the failing input): the engine holds a pending bull gap
and receives an intraminute tick (same bucket 10) satisfying every return
condition — bar distance 1 ≤ 20, the tick's range 93..96 trades through the
gap top 95, the sweep level is swept, the timestamp is inside the entry
window — yet the call emits nothing and the gap stays pending: the
intraminute path returns before any return evaluation. -/
theorem c3_intraminute_no_return_eval :
    Int.fdiv (605000 : ℤ) 60000 = (10 : ℤ) ∧
    c3Eng.i - c3Gap.i ≤ cfgStd.ret_max_bars ∧
    (93 : ℚ) ≤ c3Gap.gap_top ∧ c3Gap.gap_top ≤ (96 : ℚ) ∧
    sweptLow cfgStd c3Eng 93 = true ∧
    inEntryWindow cfgStd 605000 = true ∧
    (onBar cfgStd c3Eng 605000 95 96 93 95).2 = [] ∧
    (onBar cfgStd c3Eng 605000 95 96 93 95).1.last_bull = some c3Gap := by
  with_unfolding_all decide

/-- C4: (a) every signal forwarded to the sink carries an evaluation-bar
timestamp whose local time of day lies inside the entry window; (b) a
qualifying bull return evaluated at a timestamp outside the window emits no
signal at all, yet still clears the pending bull gap. -/
theorem c4_window_gating :
    (∀ (cfg : Config) (e : Engine) (x : Obs) (s : Signal),
        s ∈ (step cfg e x).2 → inEntryWindow cfg s.when = true) ∧
    (∀ (cfg : Config) (e : Engine) (C : Bar) (d : Bool) (g : FVG),
        e.last_bull = some g → e.i - g.i ≤ cfg.ret_max_bars → C.l ≤ g.gap_top →
        sweptLow cfg e C.l = true → d = true → inEntryWindow cfg C.ts = false →
        (returnPhase cfg e C d).1.last_bull = none ∧ (returnPhase cfg e C d).2 = []) := by
  constructor
  · intro cfg e x s hs
    unfold step at hs
    rcases hb : e.bucket with _ | cb
    · rw [onBar_init hb] at hs
      simp at hs
    · by_cases hx : Int.fdiv x.ts 60000 = cb
      · rw [onBar_intra hb hx] at hs
        simp at hs
      · rw [onBar_roll hb hx, evalRoll_rollUpdate, returnPhase_snd] at hs
        rcases List.mem_append.mp hs with hmem | hmem
        · obtain ⟨_, hwhen, hwin⟩ := mem_bullResult_snd hmem
          rw [hwhen]
          exact hwin
        · obtain ⟨_, hwhen, hwin⟩ := mem_bearResult_snd hmem
          rw [hwhen]
          exact hwin
  · intro cfg e C d g hg h1 h2 hsw hd hwin
    have hfire : (decide (e.i - g.i ≤ cfg.ret_max_bars) && decide (C.l ≤ g.gap_top) &&
        sweptLow cfg e C.l && d) = true := by
      simp [h1, h2, hsw, hd]
    constructor
    · rw [returnPhase_fst, bearResult_fst_last_bull, bullResult_fire_form hg hfire]
    · rw [returnPhase_snd, bullResult_fire_form hg hfire, maybePost_not_window hwin,
        List.nil_append]
      exact bearResult_snd_not_window hwin

/-- Witness for C4: a concrete emitted signal lies in the (whole-day) window,
and with a 10:00–11:00 window a qualifying return at 00:00 local emits nothing
while clearing the gap. -/
theorem c4_window_gating_witness :
    inEntryWindow cfgTiny ((⟨Side.long, 0, 0, 0, 0⟩ : Signal)).when = true ∧
    ((returnPhase cfgTinyNarrow eTiny ⟨0, 0, 0, 0, 0⟩ true).1.last_bull = none ∧
      (returnPhase cfgTinyNarrow eTiny ⟨0, 0, 0, 0, 0⟩ true).2 = []) :=
  ⟨c4_window_gating.1 cfgTiny eTiny ⟨60000, 0, 0, 0, 0⟩
      ⟨Side.long, 0, 0, 0, 0⟩ (by with_unfolding_all decide),
    c4_window_gating.2 cfgTinyNarrow eTiny ⟨0, 0, 0, 0, 0⟩ true ⟨0, 0, 0, 0, 0, 0⟩
      (by with_unfolding_all decide) (by with_unfolding_all decide)
      (by with_unfolding_all decide) (by with_unfolding_all decide) rfl
      (by with_unfolding_all decide)⟩

/-- C7: no return ever fires from a pending gap whose bar distance exceeds
`max_return_bars`: whenever the post-creation state of a call holds a bull
(resp. bear) gap with `i − created > max_return_bars`, the call emits no LONG
(resp. SHORT) signal and leaves that gap slot unchanged. -/
theorem c7_bar_distance_bound (cfg : Config) (e : Engine) (ts : ℤ) (o h l c : ℚ)
    (g gb : FVG) :
    ((afterCreate cfg e ts o h l c).last_bull = some g →
      cfg.ret_max_bars < (afterCreate cfg e ts o h l c).i - g.i →
      (∀ s ∈ (onBar cfg e ts o h l c).2, s.side ≠ Side.long) ∧
      (onBar cfg e ts o h l c).1.last_bull = some g) ∧
    ((afterCreate cfg e ts o h l c).last_bear = some gb →
      cfg.ret_max_bars < (afterCreate cfg e ts o h l c).i - gb.i →
      (∀ s ∈ (onBar cfg e ts o h l c).2, s.side ≠ Side.short) ∧
      (onBar cfg e ts o h l c).1.last_bear = some gb) := by
  rcases hb : e.bucket with _ | cb
  · rw [afterCreate_init hb, onBar_init hb]
    constructor
    · intro hg _
      exact ⟨by intro s hs; simp at hs, hg⟩
    · intro hg _
      exact ⟨by intro s hs; simp at hs, hg⟩
  · by_cases hx : Int.fdiv ts 60000 = cb
    · rw [afterCreate_intra hb hx, onBar_intra hb hx]
      constructor
      · intro hg _
        exact ⟨by intro s hs; simp at hs, hg⟩
      · intro hg _
        exact ⟨by intro s hs; simp at hs, hg⟩
    · rw [afterCreate_roll hb hx, onBar_roll hb hx, evalRoll_rollUpdate]
      constructor
      · intro hg hdist
        constructor
        · intro s hs
          rw [returnPhase_snd, bullResult_stale hg hdist] at hs
          simp only [List.nil_append] at hs
          obtain ⟨hside, _, _⟩ := mem_bearResult_snd hs
          rw [hside]
          decide
        · rw [returnPhase_fst, bullResult_stale hg hdist, bearResult_fst_last_bull]
          exact hg
      · intro hg hdist
        have hg2 : (bullResult cfg
            (createGaps cfg (rollUpdate cfg e ts o h l c)
              (prevAOf e ts o h l c) (prevBOf e ts o h l c)
              (decide (cfg.disp_min ≤
                dispRefOf cfg (prevAOf e ts o h l c) (prevBOf e ts o h l c)))
              (dispRefOf cfg (prevAOf e ts o h l c) (prevBOf e ts o h l c)))
            (prevBOf e ts o h l c)
            (sweptLow cfg
              (createGaps cfg (rollUpdate cfg e ts o h l c)
                (prevAOf e ts o h l c) (prevBOf e ts o h l c)
                (decide (cfg.disp_min ≤
                  dispRefOf cfg (prevAOf e ts o h l c) (prevBOf e ts o h l c)))
                (dispRefOf cfg (prevAOf e ts o h l c) (prevBOf e ts o h l c)))
              (prevBOf e ts o h l c).l)
            (decide (cfg.disp_min ≤
              dispRefOf cfg (prevAOf e ts o h l c) (prevBOf e ts o h l c)))).1.last_bear =
            some gb := by
          rw [bullResult_fst_last_bear]
          exact hg
        have hd2 : cfg.ret_max_bars < (bullResult cfg
            (createGaps cfg (rollUpdate cfg e ts o h l c)
              (prevAOf e ts o h l c) (prevBOf e ts o h l c)
              (decide (cfg.disp_min ≤
                dispRefOf cfg (prevAOf e ts o h l c) (prevBOf e ts o h l c)))
              (dispRefOf cfg (prevAOf e ts o h l c) (prevBOf e ts o h l c)))
            (prevBOf e ts o h l c)
            (sweptLow cfg
              (createGaps cfg (rollUpdate cfg e ts o h l c)
                (prevAOf e ts o h l c) (prevBOf e ts o h l c)
                (decide (cfg.disp_min ≤
                  dispRefOf cfg (prevAOf e ts o h l c) (prevBOf e ts o h l c)))
                (dispRefOf cfg (prevAOf e ts o h l c) (prevBOf e ts o h l c)))
              (prevBOf e ts o h l c).l)
            (decide (cfg.disp_min ≤
              dispRefOf cfg (prevAOf e ts o h l c) (prevBOf e ts o h l c)))).1.i - gb.i := by
          rw [bullResult_fst_i]
          exact hdist
        constructor
        · intro s hs
          rw [returnPhase_snd, bearResult_stale hg2 hd2] at hs
          rw [List.append_nil] at hs
          obtain ⟨hside, _, _⟩ := mem_bullResult_snd hs
          rw [hside]
          decide
        · rw [returnPhase_fst, bearResult_stale hg2 hd2, bullResult_fst_last_bear]
          exact hg

/-- Witness for C7: a 30-bar-old pending gap of each direction survives a new
minute roll untouched (and, per the theorem, no matching signal is emitted). -/
theorem c7_bar_distance_bound_witness :
    (onBar cfgStd c7Eng 60000 100 101 99 100).1.last_bull = some c7Gap ∧
    (onBar cfgStd c7Eng 60000 100 101 99 100).1.last_bear = some c7Gap :=
  ⟨((c7_bar_distance_bound cfgStd c7Eng 60000 100 101 99 100 c7Gap c7Gap).1
      (by with_unfolding_all decide) (by with_unfolding_all decide)).2,
    ((c7_bar_distance_bound cfgStd c7Eng 60000 100 101 99 100 c7Gap c7Gap).2
      (by with_unfolding_all decide) (by with_unfolding_all decide)).2⟩

/-- C8: at most one pending gap per direction is structural (each slot is a
single optional gap), and creation replaces: whenever a roll's evaluation has
a qualifying displacement and a wide-enough 3-candle gap, the corresponding
slot afterwards holds exactly the freshly built gap — regardless of any gap
pending before — so after two consecutive creating evaluations only the
second gap is pending. -/
theorem c8_gap_replacement (cfg : Config) (e : Engine) (ts : ℤ) (o h l c : ℚ) (cb : ℤ)
    (hb : e.bucket = some cb) (hne : Int.fdiv ts 60000 ≠ cb) (hm : cfg.mode3c = true)
    (hd : dispOkAt cfg e ts o h l c = true) :
    (cfg.fvg_min ≤ (prevBOf e ts o h l c).l - h →
      (afterCreate cfg e ts o h l c).last_bull =
        some ⟨e.i + 1, (prevBOf e ts o h l c).l, h, dispRefAt cfg e ts o h l c, l, h⟩) ∧
    (cfg.fvg_min ≤ l - (prevBOf e ts o h l c).h →
      (afterCreate cfg e ts o h l c).last_bear =
        some ⟨e.i + 1, l, (prevBOf e ts o h l c).h, dispRefAt cfg e ts o h l c, l, h⟩) := by
  rw [afterCreate_roll hb hne]
  unfold dispOkAt dispRefAt at hd
  unfold dispRefAt
  constructor
  · intro hgap
    rw [createGaps_last_bull]
    unfold bullGapOf
    simp only [hd, hm, if_true, rollUpdate_A, rollUpdate_i, rollUpdate_last_bull, mkBar]
    simp [hgap]
  · intro hgap
    rw [createGaps_last_bear]
    unfold bearGapOf
    simp only [hd, hm, if_true, rollUpdate_A, rollUpdate_i, rollUpdate_last_bear, mkBar]
    simp [hgap]

/-- Witness for C8: a stale pending gap `c8Gap` is replaced by the gap built
from the current window (index 3, top 95 = B's low, bottom 94.5 = the new
observation's high, source extremes from the new observation). -/
theorem c8_gap_replacement_witness :
    (afterCreate cfgStd c8Eng 180000 94 (189/2) 93 94).last_bull =
      some ⟨c8Eng.i + 1, (prevBOf c8Eng 180000 94 (189/2) 93 94).l, 189/2,
        dispRefAt cfgStd c8Eng 180000 94 (189/2) 93 94, 93, 189/2⟩ :=
  (c8_gap_replacement cfgStd c8Eng 180000 94 (189/2) 93 94 2 rfl
    (by with_unfolding_all decide) rfl (by with_unfolding_all decide)).1
    (by with_unfolding_all decide)

/-- C2 counterexample: a state with a pending bull gap receives a roll on
which all three claimed conditions hold — bar distance 3 ≤ 20, the evaluation
bar's range 93..96 contains the gap top 95, and the sweep holds for its low —
and the timestamp is inside the entry window, yet the code fires nothing and
keeps the gap, because this evaluation's displacement reference (a zero-body
candle) fails: firing requires a fourth condition the claim omits. -/
theorem c2_counterexample :
    (afterCreate cfgStd c2EngNoDisp 360000 100 101 99 100).last_bull = some c2Gap ∧
    (afterCreate cfgStd c2EngNoDisp 360000 100 101 99 100).i - c2Gap.i ≤
      cfgStd.ret_max_bars ∧
    (prevBOf c2EngNoDisp 360000 100 101 99 100).l ≤ c2Gap.gap_top ∧
    c2Gap.gap_top ≤ (prevBOf c2EngNoDisp 360000 100 101 99 100).h ∧
    sweptLow cfgStd (rollUpdate cfgStd c2EngNoDisp 360000 100 101 99 100)
      (prevBOf c2EngNoDisp 360000 100 101 99 100).l = true ∧
    inEntryWindow cfgStd (prevBOf c2EngNoDisp 360000 100 101 99 100).ts = true ∧
    dispOkAt cfgStd c2EngNoDisp 360000 100 101 99 100 = false ∧
    (onBar cfgStd c2EngNoDisp 360000 100 101 99 100).2 = [] ∧
    (onBar cfgStd c2EngNoDisp 360000 100 101 99 100).1.last_bull = some c2Gap := by
  with_unfolding_all decide

/-- C2 (amended): the return fires exactly under the claimed conditions plus
the displacement qualification of the evaluation: if after gap construction a
bull gap `g` is pending, the displacement reference qualifies, the bar
distance is within `max_return_bars`, the evaluation bar's range reaches the
gap top, the sweep holds, and the timestamp is in the entry window, then the
call consumes the gap and emits the LONG signal with entry `gap_top`, stop
`source-candle low − stop_buffer` and target `entry + (entry − stop) · RR`. -/
theorem c2_return_fire (cfg : Config) (e : Engine) (ts : ℤ) (o h l c : ℚ) (cb : ℤ)
    (g : FVG) (hb : e.bucket = some cb) (hne : Int.fdiv ts 60000 ≠ cb)
    (hg : (afterCreate cfg e ts o h l c).last_bull = some g)
    (hd : dispOkAt cfg e ts o h l c = true)
    (hdist : (afterCreate cfg e ts o h l c).i - g.i ≤ cfg.ret_max_bars)
    (hlow : (prevBOf e ts o h l c).l ≤ g.gap_top)
    (_hhigh : g.gap_top ≤ (prevBOf e ts o h l c).h)
    (hsw : sweptLow cfg (rollUpdate cfg e ts o h l c) (prevBOf e ts o h l c).l = true)
    (hwin : inEntryWindow cfg (prevBOf e ts o h l c).ts = true) :
    (onBar cfg e ts o h l c).1.last_bull = none ∧
    (⟨Side.long, g.gap_top, g.c1_low - cfg.sl_buffer,
        g.gap_top + (g.gap_top - (g.c1_low - cfg.sl_buffer)) * cfg.tp_rr,
        (prevBOf e ts o h l c).ts⟩ : Signal) ∈ (onBar cfg e ts o h l c).2 := by
  rw [afterCreate_roll hb hne] at hg hdist
  rw [onBar_roll hb hne, evalRoll_rollUpdate]
  unfold dispOkAt dispRefAt at hd
  have hswE : sweptLow cfg
      (createGaps cfg (rollUpdate cfg e ts o h l c)
        (prevAOf e ts o h l c) (prevBOf e ts o h l c)
        (decide (cfg.disp_min ≤
          dispRefOf cfg (prevAOf e ts o h l c) (prevBOf e ts o h l c)))
        (dispRefOf cfg (prevAOf e ts o h l c) (prevBOf e ts o h l c)))
      (prevBOf e ts o h l c).l = true := by
    rw [sweptLow_congr
      (createGaps_levels cfg (rollUpdate cfg e ts o h l c)
        (prevAOf e ts o h l c) (prevBOf e ts o h l c)
        (decide (cfg.disp_min ≤
          dispRefOf cfg (prevAOf e ts o h l c) (prevBOf e ts o h l c)))
        (dispRefOf cfg (prevAOf e ts o h l c) (prevBOf e ts o h l c)))
      (createGaps_pre_lo cfg (rollUpdate cfg e ts o h l c)
        (prevAOf e ts o h l c) (prevBOf e ts o h l c)
        (decide (cfg.disp_min ≤
          dispRefOf cfg (prevAOf e ts o h l c) (prevBOf e ts o h l c)))
        (dispRefOf cfg (prevAOf e ts o h l c) (prevBOf e ts o h l c)))]
    exact hsw
  have hfire : (decide ((createGaps cfg (rollUpdate cfg e ts o h l c)
        (prevAOf e ts o h l c) (prevBOf e ts o h l c)
        (decide (cfg.disp_min ≤
          dispRefOf cfg (prevAOf e ts o h l c) (prevBOf e ts o h l c)))
        (dispRefOf cfg (prevAOf e ts o h l c) (prevBOf e ts o h l c))).i - g.i ≤
          cfg.ret_max_bars) &&
      decide ((prevBOf e ts o h l c).l ≤ g.gap_top) &&
      sweptLow cfg
        (createGaps cfg (rollUpdate cfg e ts o h l c)
          (prevAOf e ts o h l c) (prevBOf e ts o h l c)
          (decide (cfg.disp_min ≤
            dispRefOf cfg (prevAOf e ts o h l c) (prevBOf e ts o h l c)))
          (dispRefOf cfg (prevAOf e ts o h l c) (prevBOf e ts o h l c)))
        (prevBOf e ts o h l c).l &&
      decide (cfg.disp_min ≤
        dispRefOf cfg (prevAOf e ts o h l c) (prevBOf e ts o h l c))) = true := by
    rw [decide_eq_true hdist, decide_eq_true hlow, hswE, hd]
    rfl
  constructor
  · rw [returnPhase_fst, bearResult_fst_last_bull, bullResult_fire_form hg hfire]
  · rw [returnPhase_snd, bullResult_fire_form hg hfire, maybePost_window hwin]
    exact List.mem_append_left _ (List.Mem.head _)

/-- Witness for the amended C2 at a minimal firing input: the gap created on
this very roll is immediately returned into and fires a LONG signal. -/
theorem c2_return_fire_witness :
    (onBar cfgTiny eTiny 60000 0 0 0 0).1.last_bull = none ∧
    (⟨Side.long, (⟨2, 0, 0, 0, 0, 0⟩ : FVG).gap_top,
        (⟨2, 0, 0, 0, 0, 0⟩ : FVG).c1_low - cfgTiny.sl_buffer,
        (⟨2, 0, 0, 0, 0, 0⟩ : FVG).gap_top +
          ((⟨2, 0, 0, 0, 0, 0⟩ : FVG).gap_top -
            ((⟨2, 0, 0, 0, 0, 0⟩ : FVG).c1_low - cfgTiny.sl_buffer)) * cfgTiny.tp_rr,
        (prevBOf eTiny 60000 0 0 0 0).ts⟩ : Signal) ∈
      (onBar cfgTiny eTiny 60000 0 0 0 0).2 :=
  c2_return_fire cfgTiny eTiny 60000 0 0 0 0 0 ⟨2, 0, 0, 0, 0, 0⟩
    rfl (by with_unfolding_all decide) (by with_unfolding_all decide)
    (by with_unfolding_all decide) (by with_unfolding_all decide)
    (by with_unfolding_all decide) (by with_unfolding_all decide)
    (by with_unfolding_all decide) (by with_unfolding_all decide)

/-- C5: per direction and over every input sequence, the number of emitted
signals never exceeds the number of gap creations plus the initially pending
gap — i.e. at most one signal per gap instance — and any call that emits a
signal of a direction leaves that direction's pending-gap slot empty, so a
further signal of that direction requires a fresh creation. -/
theorem c5_one_signal_per_gap :
    (∀ (cfg : Config) (e : Engine) (obs : List Obs),
        countLong (run cfg e obs).2 ≤ countBullCreated cfg e obs + pendingBull e) ∧
    (∀ (cfg : Config) (e : Engine) (obs : List Obs),
        countShort (run cfg e obs).2 ≤ countBearCreated cfg e obs + pendingBear e) ∧
    (∀ (cfg : Config) (e : Engine) (x : Obs) (s : Signal),
        s ∈ (step cfg e x).2 → s.side = Side.long → (step cfg e x).1.last_bull = none) ∧
    (∀ (cfg : Config) (e : Engine) (x : Obs) (s : Signal),
        s ∈ (step cfg e x).2 → s.side = Side.short → (step cfg e x).1.last_bear = none) := by
  refine ⟨?_, ?_, ?_, ?_⟩
  · intro cfg e obs
    induction obs generalizing e with
    | nil => simp [run, countLong, countBullCreated]
    | cons x xs ih =>
      rw [run_cons_snd, countLong_append]
      have h1 := step_bull_bound cfg e x
      have h2 := ih (step cfg e x).1
      simp only [countBullCreated]
      omega
  · intro cfg e obs
    induction obs generalizing e with
    | nil => simp [run, countShort, countBearCreated]
    | cons x xs ih =>
      rw [run_cons_snd, countShort_append]
      have h1 := step_bear_bound cfg e x
      have h2 := ih (step cfg e x).1
      simp only [countBearCreated]
      omega
  · intro cfg e x s hs hside
    unfold step at hs ⊢
    rcases hb : e.bucket with _ | cb
    · rw [onBar_init hb] at hs
      simp at hs
    · by_cases hx : Int.fdiv x.ts 60000 = cb
      · rw [onBar_intra hb hx] at hs
        simp at hs
      · rw [onBar_roll hb hx, evalRoll_rollUpdate] at hs ⊢
        rw [returnPhase_snd] at hs
        rw [returnPhase_fst, bearResult_fst_last_bull]
        rcases List.mem_append.mp hs with hmem | hmem
        · exact mem_bullResult_consumed hmem
        · obtain ⟨hshort, _, _⟩ := mem_bearResult_snd hmem
          rw [hside] at hshort
          exact absurd hshort (by decide)
  · intro cfg e x s hs hside
    unfold step at hs ⊢
    rcases hb : e.bucket with _ | cb
    · rw [onBar_init hb] at hs
      simp at hs
    · by_cases hx : Int.fdiv x.ts 60000 = cb
      · rw [onBar_intra hb hx] at hs
        simp at hs
      · rw [onBar_roll hb hx, evalRoll_rollUpdate] at hs ⊢
        rw [returnPhase_snd] at hs
        rw [returnPhase_fst]
        rcases List.mem_append.mp hs with hmem | hmem
        · obtain ⟨hlong, _, _⟩ := mem_bullResult_snd hmem
          rw [hside] at hlong
          exact absurd hlong (by decide)
        · exact mem_bearResult_consumed hmem

/-- Witness for C5: the signal-count bound evaluated on a one-observation run,
and a concrete firing call that leaves the bull slot empty. -/
theorem c5_one_signal_per_gap_witness :
    countLong (run cfgStd (initEngine levelsNone) [⟨0, 100, 101, 99, 100⟩]).2 ≤
      countBullCreated cfgStd (initEngine levelsNone) [⟨0, 100, 101, 99, 100⟩] +
        pendingBull (initEngine levelsNone) ∧
    (step cfgTiny eTiny ⟨60000, 0, 0, 0, 0⟩).1.last_bull = none :=
  ⟨c5_one_signal_per_gap.1 cfgStd (initEngine levelsNone) [⟨0, 100, 101, 99, 100⟩],
    c5_one_signal_per_gap.2.2.1 cfgTiny eTiny ⟨60000, 0, 0, 0, 0⟩
      ⟨Side.long, 0, 0, 0, 0⟩ (by with_unfolding_all decide) rfl⟩

end SBWatch
